import Mathlib

/-!
Verification of `drake/systems/n_ary_system.h`: the `NArySystem` aggregate,
which composes N instances of a homogeneous `UnitSystem` into one system whose
state, input and output vectors are the concatenations of the units' vectors.

`NArySystem` itself is embedded directly from the header.  The composite
vector type `NAryState` (declared in `drake/systems/n_ary_state.h`, which is
not among the sources) and the `UnitSystem` capability set (an external
template parameter) are modelled from the specification, as marked on each
definition.
-/

namespace Drake

/-- A C++ exception value as observed by a caller of the aggregate: either a
`std::invalid_argument` carrying a message (raised by the aggregate's count
validation, or possibly by a unit system), an out-of-range fault from indexing
a composite vector outside its units, or any other exception class a unit
system may raise, identified by a tag and message. -/
inductive CppException where
  | invalidArgument (msg : String)
  | outOfRange (msg : String)
  | other (tag : Nat) (msg : String)
  deriving DecidableEq

/-- Modelled from the spec: `NAryState` (from `drake/systems/n_ary_state.h`,
absent from the sources) is a composite vector holding an ordered sequence of
per-unit values, together with a reported unit count where a negative count is
the "unknown / unsized" sentinel.  The spec invariant is that a non-negative
`count` equals `units.length`. -/
structure NAryState (V : Type) where
  count : Int
  units : List V
  deriving DecidableEq

/-- Modelled from the spec: `get(i)` returns the i-th per-unit vector;
an index outside the stored units is a contract violation, represented here
by `none`. -/
def NAryState.get {V : Type} (v : NAryState V) (i : Nat) : Option V :=
  v.units[i]?

/-- `get(i)` as seen by the aggregate's evaluation loop: an out-of-range
index surfaces as the fatal index-out-of-range fault of the error taxonomy. -/
def NAryState.getE {V : Type} (v : NAryState V) (i : Nat) :
    Except CppException V :=
  match v.get i with
  | some x => Except.ok x
  | none => Except.error (CppException.outOfRange "NAryState index out of range")

/-- Modelled from the spec: `rowsFromUnitCount(n)` is the total scalar
dimension of a composite vector of `n` units, each of the per-unit type's
fixed dimension `unitDim` (n × per-unit dimension, the uniform case). -/
def NAryState.rowsFromUnitCount (unitDim : Nat) (n : Nat) : Nat :=
  n * unitDim

/-- Modelled from the spec: the unit-system capability set consumed by the
aggregate (spec section 6): `dynamics` and `output` taking a time, a per-unit
state and a per-unit input (either may fail with an exception, which the
aggregate must propagate), and the `isTimeVarying` / `isDirectFeedthrough`
flags. -/
structure UnitSystem (T S I O : Type) where
  dynamics : T → S → I → Except CppException S
  output : T → S → I → Except CppException O
  isTimeVarying : Bool
  isDirectFeedthrough : Bool

/-- `NArySystem<UnitSystem>`: owns the ordered collection `systems_` of unit
systems (`std::vector<std::shared_ptr<UnitSystem>> systems_`). -/
structure NArySystem (T S I O : Type) where
  systems_ : List (UnitSystem T S I O)

/-- `addSystem(system)`: `systems_.push_back(system)` — appends `system` to
the end of the list of unit systems. -/
def NArySystem.addSystem {T S I O : Type} (sys : NArySystem T S I O)
    (system : UnitSystem T S I O) : NArySystem T S I O :=
  { systems_ := sys.systems_ ++ [system] }

/-- The per-index evaluation loop shared by `dynamics` and `output`:
`for (i = 0; i < systems_.size(); ++i) result.set(i, f(systems_[i], time,
state.get(i), input.get(i)))`, with the remaining units `l` paired with the
running index `k`.  The first exception (out-of-range `get` or a failing unit
operation) aborts the loop and propagates. -/
def NArySystem.evalFrom {T S I O R : Type}
    (f : UnitSystem T S I O → T → S → I → Except CppException R)
    (time : T) (state : NAryState S) (input : NAryState I) :
    List (UnitSystem T S I O) → Nat → Except CppException (List R)
  | [], _ => Except.ok []
  | u :: rest, k =>
    state.getE k >>= fun si =>
    input.getE k >>= fun ii =>
    f u time si ii >>= fun r =>
    NArySystem.evalFrom f time state input rest (k + 1) >>= fun rs =>
    Except.ok (r :: rs)

/-- `dynamics(time, state, input)`: validates `state.count()` then
`input.count()` against `systems_.size()` (each check skipped when the count
is negative), throwing `std::invalid_argument` with the respective message on
mismatch; otherwise builds the state-derivative composite vector sized to the
unit count by invoking each unit's `dynamics` in index order. -/
def NArySystem.dynamics {T S I O : Type} (sys : NArySystem T S I O) (time : T)
    (state : NAryState S) (input : NAryState I) :
    Except CppException (NAryState S) :=
  if state.count ≥ 0 ∧ state.count ≠ (sys.systems_.length : Int) then
    Except.error (CppException.invalidArgument
      "State count differs from systems count.")
  else if input.count ≥ 0 ∧ input.count ≠ (sys.systems_.length : Int) then
    Except.error (CppException.invalidArgument
      "Input count differs from systems count.")
  else
    match NArySystem.evalFrom (fun u => u.dynamics) time state input
        sys.systems_ 0 with
    | Except.error e => Except.error e
    | Except.ok rs =>
      Except.ok { count := (sys.systems_.length : Int), units := rs }

/-- `output(time, state, input)`: identical validation to `dynamics`, then
builds the aggregate output vector by invoking each unit's `output` in index
order. -/
def NArySystem.output {T S I O : Type} (sys : NArySystem T S I O) (time : T)
    (state : NAryState S) (input : NAryState I) :
    Except CppException (NAryState O) :=
  if state.count ≥ 0 ∧ state.count ≠ (sys.systems_.length : Int) then
    Except.error (CppException.invalidArgument
      "State count differs from systems count.")
  else if input.count ≥ 0 ∧ input.count ≠ (sys.systems_.length : Int) then
    Except.error (CppException.invalidArgument
      "Input count differs from systems count.")
  else
    match NArySystem.evalFrom (fun u => u.output) time state input
        sys.systems_ 0 with
    | Except.error e => Except.error e
    | Except.ok rs =>
      Except.ok { count := (sys.systems_.length : Int), units := rs }

/-- `isTimeVarying()`: `(systems_.size() > 0) && systems_[0]->isTimeVarying()`. -/
def NArySystem.isTimeVarying {T S I O : Type} (sys : NArySystem T S I O) :
    Bool :=
  match sys.systems_ with
  | [] => false
  | u :: _ => u.isTimeVarying

/-- `isDirectFeedthrough()`: `(systems_.size() > 0) &&
systems_[0]->isDirectFeedthrough()`. -/
def NArySystem.isDirectFeedthrough {T S I O : Type} (sys : NArySystem T S I O) :
    Bool :=
  match sys.systems_ with
  | [] => false
  | u :: _ => u.isDirectFeedthrough

/-- `getNumStates()`: `StateVector<double>::rowsFromUnitCount(systems_.size())`,
with `stateDim` the per-unit state dimension fixed by the `StateVector` type. -/
def NArySystem.getNumStates {T S I O : Type} (stateDim : Nat)
    (sys : NArySystem T S I O) : Nat :=
  NAryState.rowsFromUnitCount stateDim sys.systems_.length

/-- `getNumInputs()`: `InputVector<double>::rowsFromUnitCount(systems_.size())`. -/
def NArySystem.getNumInputs {T S I O : Type} (inputDim : Nat)
    (sys : NArySystem T S I O) : Nat :=
  NAryState.rowsFromUnitCount inputDim sys.systems_.length

/-- `getNumOutputs()`: `OutputVector<double>::rowsFromUnitCount(systems_.size())`. -/
def NArySystem.getNumOutputs {T S I O : Type} (outputDim : Nat)
    (sys : NArySystem T S I O) : Nat :=
  NAryState.rowsFromUnitCount outputDim sys.systems_.length

/-- A concrete unit system over natural numbers, used to exercise the
aggregate's operations on closed inputs. -/
def natUnit : UnitSystem Nat Nat Nat Nat :=
  { dynamics := fun _ s i => Except.ok (s + i)
    output := fun _ s i => Except.ok (s * 10 + i)
    isTimeVarying := true
    isDirectFeedthrough := false }

/-- A concrete unit system whose own operations always fail, used to exercise
failure propagation through the aggregate. -/
def failUnit : UnitSystem Nat Nat Nat Nat :=
  { dynamics := fun _ _ _ => Except.error (CppException.other 3 "unit dynamics failure")
    output := fun _ _ _ => Except.error (CppException.other 4 "unit output failure")
    isTimeVarying := false
    isDirectFeedthrough := true }

/-- A second concrete unit system over natural numbers, distinguishable from
`natUnit`. -/
def natUnit2 : UnitSystem Nat Nat Nat Nat :=
  { dynamics := fun _ s i => Except.ok (2 * s + i)
    output := fun _ s i => Except.ok (s * 100 + i)
    isTimeVarying := false
    isDirectFeedthrough := false }

/-- A concrete aggregate holding a single `natUnit`. -/
def natSys1 : NArySystem Nat Nat Nat Nat := ⟨[natUnit]⟩

/-- A concrete aggregate holding a single `failUnit`. -/
def failSys1 : NArySystem Nat Nat Nat Nat := ⟨[failUnit]⟩

/-- The unit system of the spec's scenario: one-dimensional state, input and
output with dynamics x' = -x + u and output x, over exact rational scalars. -/
def scenarioUnit : UnitSystem ℚ ℚ ℚ ℚ :=
  { dynamics := fun _ x u => Except.ok (-x + u)
    output := fun _ x _ => Except.ok x
    isTimeVarying := false
    isDirectFeedthrough := false }

/-- The spec scenario's aggregate: three identical `scenarioUnit`s. -/
def scenarioSys : NArySystem ℚ ℚ ℚ ℚ :=
  ⟨[scenarioUnit, scenarioUnit, scenarioUnit]⟩

/-- The observable result of one call on the aggregate's public interface. -/
inductive AggResult (S O : Type) where
  | stateRes (r : Except CppException (NAryState S))
  | outRes (r : Except CppException (NAryState O))
  | boolRes (b : Bool)
  | natRes (n : Nat)
  | unitRes

/-- One call on the aggregate's public interface. -/
inductive AggOp (T S I O : Type) where
  | dynamicsCall (time : T) (state : NAryState S) (input : NAryState I)
  | outputCall (time : T) (state : NAryState S) (input : NAryState I)
  | isTimeVaryingCall
  | isDirectFeedthroughCall
  | getNumStatesCall (stateDim : Nat)
  | getNumInputsCall (inputDim : Nat)
  | getNumOutputsCall (outputDim : Nat)
  | addSystemCall (u : UnitSystem T S I O)

/-- Whether the call is one of the query/evaluation operations — everything
in the interface except the registration call `addSystem`. -/
def AggOp.isQuery {T S I O : Type} : AggOp T S I O → Bool
  | .addSystemCall _ => false
  | _ => true

/-- Execute one call against the aggregate: the value it returns paired with
the aggregate afterwards.  The seven query/evaluation operations are `const`
member functions reading `systems_` and return the aggregate as they found
it; `addSystem` appends to `systems_`. -/
def AggOp.run {T S I O : Type} :
    AggOp T S I O → NArySystem T S I O → AggResult S O × NArySystem T S I O
  | .dynamicsCall t st inp, sys => (.stateRes (sys.dynamics t st inp), sys)
  | .outputCall t st inp, sys => (.outRes (sys.output t st inp), sys)
  | .isTimeVaryingCall, sys => (.boolRes sys.isTimeVarying, sys)
  | .isDirectFeedthroughCall, sys => (.boolRes sys.isDirectFeedthrough, sys)
  | .getNumStatesCall d, sys => (.natRes (sys.getNumStates d), sys)
  | .getNumInputsCall d, sys => (.natRes (sys.getNumInputs d), sys)
  | .getNumOutputsCall d, sys => (.natRes (sys.getNumOutputs d), sys)
  | .addSystemCall u, sys => (.unitRes, sys.addSystem u)

/-- Execute a sequence of calls, returning the final aggregate. -/
def runAll {T S I O : Type} :
    List (AggOp T S I O) → NArySystem T S I O → NArySystem T S I O
  | [], sys => sys
  | op :: ops, sys => runAll ops (op.run sys).2

/-!
Structural lemmas about the evaluation loop, shared by the claim theorems.
-/

/-- Binding a successful `Except` computation applies the continuation. -/
theorem except_ok_bind {ε α β : Type} (a : α) (g : α → Except ε β) :
    (Except.ok a >>= g) = g a := rfl

/-- Binding a failed `Except` computation propagates the error. -/
theorem except_error_bind {ε α β : Type} (e : ε) (g : α → Except ε β) :
    ((Except.error e : Except ε α) >>= g) = Except.error e := rfl

/-- A successful run of the evaluation loop yields one result per unit, and
the result at offset `j` is exactly the value of `f` on unit `j` of `l`, fed
the per-unit state and input at composite index `k + j`. -/
theorem evalFrom_ok_spec {T S I O R : Type}
    (f : UnitSystem T S I O → T → S → I → Except CppException R)
    (time : T) (state : NAryState S) (input : NAryState I) :
    ∀ (l : List (UnitSystem T S I O)) (k : Nat) (rs : List R),
      NArySystem.evalFrom f time state input l k = Except.ok rs →
      rs.length = l.length ∧
      ∀ j (hj : j < l.length), ∃ s i rv,
        state.getE (k + j) = Except.ok s ∧ input.getE (k + j) = Except.ok i ∧
        f (l.get ⟨j, hj⟩) time s i = Except.ok rv ∧ rs[j]? = some rv := by
  intro l
  induction l with
  | nil =>
    intro k rs h
    simp only [NArySystem.evalFrom, Except.ok.injEq] at h
    subst h
    exact ⟨rfl, fun j hj => absurd hj (Nat.not_lt_zero j)⟩
  | cons u rest ih =>
    intro k rs h
    rw [NArySystem.evalFrom] at h
    cases hs : state.getE k with
    | error e =>
      rw [hs, except_error_bind] at h
      exact absurd h (by simp)
    | ok si =>
      rw [hs] at h
      simp only [except_ok_bind] at h
      cases hi : input.getE k with
      | error e =>
        rw [hi, except_error_bind] at h
        exact absurd h (by simp)
      | ok ii =>
        rw [hi] at h
        simp only [except_ok_bind] at h
        cases hf : f u time si ii with
        | error e =>
          rw [hf, except_error_bind] at h
          exact absurd h (by simp)
        | ok r =>
          rw [hf] at h
          simp only [except_ok_bind] at h
          cases hrec : NArySystem.evalFrom f time state input rest (k + 1) with
          | error e =>
            rw [hrec, except_error_bind] at h
            exact absurd h (by simp)
          | ok rs' =>
            rw [hrec] at h
            simp only [except_ok_bind, Except.ok.injEq] at h
            subst h
            obtain ⟨hlen, hspec⟩ := ih (k + 1) rs' hrec
            refine ⟨by simpa using hlen, ?_⟩
            intro j hj
            match j with
            | 0 =>
              refine ⟨si, ii, r, ?_, ?_, ?_, by simp⟩
              · simpa using hs
              · simpa using hi
              · simpa using hf
            | j' + 1 =>
              obtain ⟨s, i, rv, h1, h2, h3, h4⟩ :=
                hspec j' (by simpa using Nat.lt_of_succ_lt_succ hj)
              refine ⟨s, i, rv, ?_, ?_, ?_, ?_⟩
              · rw [show k + (j' + 1) = k + 1 + j' by omega]; exact h1
              · rw [show k + (j' + 1) = k + 1 + j' by omega]; exact h2
              · exact h3
              · simpa using h4

/-- If at every offset `j` of the unit list the per-unit state and input are
in range and `f` succeeds, then the evaluation loop as a whole succeeds. -/
theorem evalFrom_ok_exists {T S I O R : Type}
    (f : UnitSystem T S I O → T → S → I → Except CppException R)
    (time : T) (state : NAryState S) (input : NAryState I) :
    ∀ (l : List (UnitSystem T S I O)) (k : Nat),
      (∀ j (hj : j < l.length), ∃ s i rv,
        state.getE (k + j) = Except.ok s ∧ input.getE (k + j) = Except.ok i ∧
        f (l.get ⟨j, hj⟩) time s i = Except.ok rv) →
      ∃ rs, NArySystem.evalFrom f time state input l k = Except.ok rs := by
  intro l
  induction l with
  | nil =>
    intro k _
    exact ⟨[], rfl⟩
  | cons u rest ih =>
    intro k hall
    obtain ⟨s, i, rv, h1, h2, h3⟩ := hall 0 (Nat.succ_pos rest.length)
    rw [Nat.add_zero] at h1 h2
    have hrest : ∀ j (hj : j < rest.length), ∃ s i rv,
        state.getE (k + 1 + j) = Except.ok s ∧
        input.getE (k + 1 + j) = Except.ok i ∧
        f (rest.get ⟨j, hj⟩) time s i = Except.ok rv := by
      intro j hj
      obtain ⟨s', i', rv', g1, g2, g3⟩ :=
        hall (j + 1) (Nat.succ_lt_succ hj)
      rw [show k + (j + 1) = k + 1 + j by omega] at g1 g2
      exact ⟨s', i', rv', g1, g2, by simpa using g3⟩
    obtain ⟨rs', hrs'⟩ := ih (k + 1) hrest
    refine ⟨rv :: rs', ?_⟩
    rw [NArySystem.evalFrom, h1]
    simp only [except_ok_bind]
    rw [h2]
    simp only [except_ok_bind]
    have h3' : f u time s i = Except.ok rv := by simpa using h3
    rw [h3']
    simp only [except_ok_bind]
    rw [hrs']
    simp only [except_ok_bind]

/-- If every unit before offset `i` evaluates successfully, offset `i`'s
per-unit state and input are in range, and unit `i`'s operation fails with
exception `e`, then the whole loop fails with exactly `e`. -/
theorem evalFrom_error_at {T S I O R : Type}
    (f : UnitSystem T S I O → T → S → I → Except CppException R)
    (time : T) (state : NAryState S) (input : NAryState I) :
    ∀ (l : List (UnitSystem T S I O)) (k : Nat) (i : Nat) (hi : i < l.length)
      (e : CppException),
      (∀ j (hj : j < i), ∃ s ii rv,
        state.getE (k + j) = Except.ok s ∧ input.getE (k + j) = Except.ok ii ∧
        f (l.get ⟨j, Nat.lt_trans hj hi⟩) time s ii = Except.ok rv) →
      (∃ s ii, state.getE (k + i) = Except.ok s ∧
        input.getE (k + i) = Except.ok ii ∧
        f (l.get ⟨i, hi⟩) time s ii = Except.error e) →
      NArySystem.evalFrom f time state input l k = Except.error e := by
  intro l
  induction l with
  | nil =>
    intro k i hi
    exact absurd hi (Nat.not_lt_zero i)
  | cons u rest ih =>
    intro k i hi e hpre hfail
    match i with
    | 0 =>
      obtain ⟨s, ii, h1, h2, h3⟩ := hfail
      rw [Nat.add_zero] at h1 h2
      rw [NArySystem.evalFrom, h1]
      simp only [except_ok_bind]
      rw [h2]
      simp only [except_ok_bind]
      have h3' : f u time s ii = Except.error e := by simpa using h3
      rw [h3']
      simp only [except_error_bind]
    | i' + 1 =>
      obtain ⟨s, ii, rv, h1, h2, h3⟩ := hpre 0 (Nat.succ_pos i')
      rw [Nat.add_zero] at h1 h2
      rw [NArySystem.evalFrom, h1]
      simp only [except_ok_bind]
      rw [h2]
      simp only [except_ok_bind]
      have h3' : f u time s ii = Except.ok rv := by simpa using h3
      rw [h3']
      simp only [except_ok_bind]
      have hi' : i' < rest.length := Nat.lt_of_succ_lt_succ hi
      have hrec := ih (k + 1) i' hi' e ?_ ?_
      · rw [hrec]
        simp only [except_error_bind]
      · intro j hj
        obtain ⟨s', ii', rv', g1, g2, g3⟩ := hpre (j + 1) (Nat.succ_lt_succ hj)
        rw [show k + (j + 1) = k + 1 + j by omega] at g1 g2
        exact ⟨s', ii', rv', g1, g2, by simpa using g3⟩
      · obtain ⟨s', ii', g1, g2, g3⟩ := hfail
        rw [show k + (i' + 1) = k + 1 + i' by omega] at g1 g2
        exact ⟨s', ii', g1, g2, by simpa using g3⟩

/-- When both counts pass validation, `dynamics` is exactly the per-index
evaluation loop, packaged into a composite vector sized to the unit count. -/
theorem dynamics_eval {T S I O : Type} (sys : NArySystem T S I O) (time : T)
    (state : NAryState S) (input : NAryState I)
    (hs : ¬(state.count ≥ 0 ∧ state.count ≠ (sys.systems_.length : Int)))
    (hi : ¬(input.count ≥ 0 ∧ input.count ≠ (sys.systems_.length : Int))) :
    sys.dynamics time state input =
      match NArySystem.evalFrom (fun u => u.dynamics) time state input
          sys.systems_ 0 with
      | Except.error e => Except.error e
      | Except.ok rs =>
        Except.ok { count := (sys.systems_.length : Int), units := rs } := by
  rw [NArySystem.dynamics, if_neg hs, if_neg hi]

/-- When both counts pass validation, `output` is exactly the per-index
evaluation loop over each unit's `output`. -/
theorem output_eval {T S I O : Type} (sys : NArySystem T S I O) (time : T)
    (state : NAryState S) (input : NAryState I)
    (hs : ¬(state.count ≥ 0 ∧ state.count ≠ (sys.systems_.length : Int)))
    (hi : ¬(input.count ≥ 0 ∧ input.count ≠ (sys.systems_.length : Int))) :
    sys.output time state input =
      match NArySystem.evalFrom (fun u => u.output) time state input
          sys.systems_ 0 with
      | Except.error e => Except.error e
      | Except.ok rs =>
        Except.ok { count := (sys.systems_.length : Int), units := rs } := by
  rw [NArySystem.output, if_neg hs, if_neg hi]

/-- A successful `dynamics` call comes from a successful run of the
evaluation loop, whose results are the units of the returned vector. -/
theorem dynamics_ok_elim {T S I O : Type} (sys : NArySystem T S I O) (time : T)
    (state : NAryState S) (input : NAryState I) (r : NAryState S)
    (h : sys.dynamics time state input = Except.ok r) :
    ∃ rs, NArySystem.evalFrom (fun u => u.dynamics) time state input
        sys.systems_ 0 = Except.ok rs ∧
      r = { count := (sys.systems_.length : Int), units := rs } := by
  rw [NArySystem.dynamics] at h
  by_cases hs : state.count ≥ 0 ∧ state.count ≠ (sys.systems_.length : Int)
  · rw [if_pos hs] at h
    exact absurd h (by simp)
  · rw [if_neg hs] at h
    by_cases hi : input.count ≥ 0 ∧ input.count ≠ (sys.systems_.length : Int)
    · rw [if_pos hi] at h
      exact absurd h (by simp)
    · rw [if_neg hi] at h
      cases hres : NArySystem.evalFrom (fun u => u.dynamics) time state input
          sys.systems_ 0 with
      | error e =>
        rw [hres] at h
        exact absurd h (by simp)
      | ok rs =>
        rw [hres] at h
        simp only [Except.ok.injEq] at h
        exact ⟨rs, rfl, h.symm⟩

/-- A successful `output` call comes from a successful run of the evaluation
loop over each unit's `output`. -/
theorem output_ok_elim {T S I O : Type} (sys : NArySystem T S I O) (time : T)
    (state : NAryState S) (input : NAryState I) (y : NAryState O)
    (h : sys.output time state input = Except.ok y) :
    ∃ rs, NArySystem.evalFrom (fun u => u.output) time state input
        sys.systems_ 0 = Except.ok rs ∧
      y = { count := (sys.systems_.length : Int), units := rs } := by
  rw [NArySystem.output] at h
  by_cases hs : state.count ≥ 0 ∧ state.count ≠ (sys.systems_.length : Int)
  · rw [if_pos hs] at h
    exact absurd h (by simp)
  · rw [if_neg hs] at h
    by_cases hi : input.count ≥ 0 ∧ input.count ≠ (sys.systems_.length : Int)
    · rw [if_pos hi] at h
      exact absurd h (by simp)
    · rw [if_neg hi] at h
      cases hres : NArySystem.evalFrom (fun u => u.output) time state input
          sys.systems_ 0 with
      | error e =>
        rw [hres] at h
        exact absurd h (by simp)
      | ok rs =>
        rw [hres] at h
        simp only [Except.ok.injEq] at h
        exact ⟨rs, rfl, h.symm⟩

/-- C2: `dynamics` and `output` fail with the invalid-argument shape-mismatch
condition exactly according to the count checks: a non-negative state count
differing from the systems count yields the "State count differs from systems
count." error; otherwise a non-negative input count differing from the
systems count yields the distinct "Input count differs from systems count."
error; and when neither check fires (in particular whenever a count is
negative, i.e. unknown, its check is skipped) the call is exactly the
per-index evaluation loop. -/
theorem count_validation {T S I O : Type} (sys : NArySystem T S I O) (time : T)
    (state : NAryState S) (input : NAryState I) :
    ((state.count ≥ 0 ∧ state.count ≠ (sys.systems_.length : Int)) →
      sys.dynamics time state input = Except.error (CppException.invalidArgument
        "State count differs from systems count.") ∧
      sys.output time state input = Except.error (CppException.invalidArgument
        "State count differs from systems count.")) ∧
    (¬(state.count ≥ 0 ∧ state.count ≠ (sys.systems_.length : Int)) →
      (input.count ≥ 0 ∧ input.count ≠ (sys.systems_.length : Int)) →
      sys.dynamics time state input = Except.error (CppException.invalidArgument
        "Input count differs from systems count.") ∧
      sys.output time state input = Except.error (CppException.invalidArgument
        "Input count differs from systems count.")) ∧
    (¬(state.count ≥ 0 ∧ state.count ≠ (sys.systems_.length : Int)) →
      ¬(input.count ≥ 0 ∧ input.count ≠ (sys.systems_.length : Int)) →
      sys.dynamics time state input =
        (match NArySystem.evalFrom (fun u => u.dynamics) time state input
            sys.systems_ 0 with
        | Except.error e => Except.error e
        | Except.ok rs =>
          Except.ok { count := (sys.systems_.length : Int), units := rs }) ∧
      sys.output time state input =
        (match NArySystem.evalFrom (fun u => u.output) time state input
            sys.systems_ 0 with
        | Except.error e => Except.error e
        | Except.ok rs =>
          Except.ok { count := (sys.systems_.length : Int), units := rs })) := by
  refine ⟨fun hs => ⟨?_, ?_⟩, fun hs hi => ⟨?_, ?_⟩, fun hs hi =>
    ⟨dynamics_eval sys time state input hs hi,
     output_eval sys time state input hs hi⟩⟩
  · rw [NArySystem.dynamics, if_pos hs]
  · rw [NArySystem.output, if_pos hs]
  · rw [NArySystem.dynamics, if_neg hs, if_pos hi]
  · rw [NArySystem.output, if_neg hs, if_pos hi]

/-- C2 witness: on a one-unit aggregate, a state vector declaring two units
makes `dynamics` fail with the state-count message. -/
theorem count_validation_witness :
    natSys1.dynamics 0 ⟨2, [5, 6]⟩ ⟨1, [7]⟩ =
      Except.error (CppException.invalidArgument
        "State count differs from systems count.") :=
  ((count_validation natSys1 0 ⟨2, [5, 6]⟩ ⟨1, [7]⟩).1 (by decide)).1

/-- C9: when both the state count and the input count are non-negative and
differ from the systems count, the failure reported is the state-count
mismatch (the state check runs first), and the result is the same for any
aggregate with the same number of units regardless of the units themselves —
no unit system's `dynamics` or `output` is consulted. -/
theorem state_check_precedes_input_check {T S I O : Type}
    (sys : NArySystem T S I O) (time : T) (state : NAryState S)
    (input : NAryState I)
    (h1 : state.count ≥ 0) (h2 : state.count ≠ (sys.systems_.length : Int))
    (_h3 : input.count ≥ 0) (_h4 : input.count ≠ (sys.systems_.length : Int)) :
    sys.dynamics time state input = Except.error (CppException.invalidArgument
      "State count differs from systems count.") ∧
    sys.output time state input = Except.error (CppException.invalidArgument
      "State count differs from systems count.") ∧
    ∀ sys' : NArySystem T S I O,
      sys'.systems_.length = sys.systems_.length →
      sys'.dynamics time state input = sys.dynamics time state input ∧
      sys'.output time state input = sys.output time state input := by
  have hd : sys.dynamics time state input =
      Except.error (CppException.invalidArgument
        "State count differs from systems count.") := by
    rw [NArySystem.dynamics, if_pos ⟨h1, h2⟩]
  have ho : sys.output time state input =
      Except.error (CppException.invalidArgument
        "State count differs from systems count.") := by
    rw [NArySystem.output, if_pos ⟨h1, h2⟩]
  refine ⟨hd, ho, fun sys' hlen => ⟨?_, ?_⟩⟩
  · rw [hd, NArySystem.dynamics, if_pos ⟨h1, by rw [hlen]; exact h2⟩]
  · rw [ho, NArySystem.output, if_pos ⟨h1, by rw [hlen]; exact h2⟩]

/-- C9 witness: with both counts wrong on a one-unit aggregate, the state
message is the one reported. -/
theorem state_check_precedes_input_check_witness :
    natSys1.dynamics 0 ⟨2, [5, 6]⟩ ⟨3, [7, 8, 9]⟩ =
      Except.error (CppException.invalidArgument
        "State count differs from systems count.") :=
  (state_check_precedes_input_check natSys1 0 ⟨2, [5, 6]⟩ ⟨3, [7, 8, 9]⟩
    (by decide) (by decide) (by decide) (by decide)).1

/-- C4: the three dimension queries return `rowsFromUnitCount` of the number
of registered units for the respective per-unit dimension, and an empty
aggregate yields zero for all three. -/
theorem getNum_rowsFromUnitCount {T S I O : Type} (stateDim inputDim outputDim : Nat)
    (sys : NArySystem T S I O) :
    sys.getNumStates stateDim =
      NAryState.rowsFromUnitCount stateDim sys.systems_.length ∧
    sys.getNumInputs inputDim =
      NAryState.rowsFromUnitCount inputDim sys.systems_.length ∧
    sys.getNumOutputs outputDim =
      NAryState.rowsFromUnitCount outputDim sys.systems_.length ∧
    (sys.systems_ = [] →
      sys.getNumStates stateDim = 0 ∧ sys.getNumInputs inputDim = 0 ∧
      sys.getNumOutputs outputDim = 0) := by
  refine ⟨rfl, rfl, rfl, fun h => ?_⟩
  simp [NArySystem.getNumStates, NArySystem.getNumInputs,
    NArySystem.getNumOutputs, NAryState.rowsFromUnitCount, h]

/-- C4 witness: on an empty aggregate all three dimension queries are zero. -/
theorem getNum_rowsFromUnitCount_witness :
    (⟨[]⟩ : NArySystem Nat Nat Nat Nat).getNumStates 4 = 0 ∧
    (⟨[]⟩ : NArySystem Nat Nat Nat Nat).getNumInputs 5 = 0 ∧
    (⟨[]⟩ : NArySystem Nat Nat Nat Nat).getNumOutputs 6 = 0 :=
  (getNum_rowsFromUnitCount 4 5 6 (⟨[]⟩ : NArySystem Nat Nat Nat Nat)).2.2.2 rfl

/-- C5: `isTimeVarying` is true exactly when the aggregate is non-empty and
its first unit reports time-varying; `isDirectFeedthrough` likewise with the
first unit's direct-feedthrough flag; both are false on an empty aggregate. -/
theorem first_unit_flags {T S I O : Type} (sys : NArySystem T S I O) :
    (sys.isTimeVarying = true ↔
      ∃ u rest, sys.systems_ = u :: rest ∧ u.isTimeVarying = true) ∧
    (sys.isDirectFeedthrough = true ↔
      ∃ u rest, sys.systems_ = u :: rest ∧ u.isDirectFeedthrough = true) ∧
    (sys.systems_ = [] →
      sys.isTimeVarying = false ∧ sys.isDirectFeedthrough = false) := by
  obtain ⟨l⟩ := sys
  cases l with
  | nil =>
    refine ⟨?_, ?_, fun _ => ⟨rfl, rfl⟩⟩ <;>
      simp [NArySystem.isTimeVarying, NArySystem.isDirectFeedthrough]
  | cons u rest =>
    refine ⟨?_, ?_, fun h => by cases h⟩ <;>
      simp [NArySystem.isTimeVarying, NArySystem.isDirectFeedthrough]

/-- C5 witness: an empty aggregate reports neither time-varying nor direct
feedthrough. -/
theorem first_unit_flags_witness :
    (⟨[]⟩ : NArySystem Nat Nat Nat Nat).isTimeVarying = false ∧
    (⟨[]⟩ : NArySystem Nat Nat Nat Nat).isDirectFeedthrough = false :=
  (first_unit_flags (⟨[]⟩ : NArySystem Nat Nat Nat Nat)).2.2 rfl

/-- C1: with validated counts, any composite vector returned by `dynamics`
has count equal to the number of registered units and carries, at each index
`j`, the value of `unit[j].dynamics(time, state.get(j), input.get(j))`; and
whenever every per-unit evaluation succeeds, `dynamics` does return such a
vector.  `output` satisfies the identical contract with each unit's `output`. -/
theorem dynamics_output_pointwise {T S I O : Type} (sys : NArySystem T S I O)
    (time : T) (state : NAryState S) (input : NAryState I)
    (hs : ¬(state.count ≥ 0 ∧ state.count ≠ (sys.systems_.length : Int)))
    (hi : ¬(input.count ≥ 0 ∧ input.count ≠ (sys.systems_.length : Int))) :
    (∀ r, sys.dynamics time state input = Except.ok r →
      r.count = (sys.systems_.length : Int) ∧
      r.units.length = sys.systems_.length ∧
      ∀ j (hj : j < sys.systems_.length), ∃ s i rv,
        state.getE j = Except.ok s ∧ input.getE j = Except.ok i ∧
        (sys.systems_.get ⟨j, hj⟩).dynamics time s i = Except.ok rv ∧
        r.get j = some rv) ∧
    (∀ y, sys.output time state input = Except.ok y →
      y.count = (sys.systems_.length : Int) ∧
      y.units.length = sys.systems_.length ∧
      ∀ j (hj : j < sys.systems_.length), ∃ s i rv,
        state.getE j = Except.ok s ∧ input.getE j = Except.ok i ∧
        (sys.systems_.get ⟨j, hj⟩).output time s i = Except.ok rv ∧
        y.get j = some rv) ∧
    ((∀ j (hj : j < sys.systems_.length), ∃ s i rv,
        state.getE j = Except.ok s ∧ input.getE j = Except.ok i ∧
        (sys.systems_.get ⟨j, hj⟩).dynamics time s i = Except.ok rv) →
      ∃ r, sys.dynamics time state input = Except.ok r) ∧
    ((∀ j (hj : j < sys.systems_.length), ∃ s i rv,
        state.getE j = Except.ok s ∧ input.getE j = Except.ok i ∧
        (sys.systems_.get ⟨j, hj⟩).output time s i = Except.ok rv) →
      ∃ y, sys.output time state input = Except.ok y) := by
  refine ⟨?_, ?_, ?_, ?_⟩
  · intro r hr
    obtain ⟨rs, hres, hr'⟩ := dynamics_ok_elim sys time state input r hr
    obtain ⟨hlen, hspec⟩ := evalFrom_ok_spec (fun u => u.dynamics) time state
      input sys.systems_ 0 rs hres
    subst hr'
    refine ⟨rfl, hlen, fun j hj => ?_⟩
    obtain ⟨s, i, rv, g1, g2, g3, g4⟩ := hspec j hj
    rw [Nat.zero_add] at g1 g2
    exact ⟨s, i, rv, g1, g2, g3, g4⟩
  · intro y hy
    obtain ⟨rs, hres, hy'⟩ := output_ok_elim sys time state input y hy
    obtain ⟨hlen, hspec⟩ := evalFrom_ok_spec (fun u => u.output) time state
      input sys.systems_ 0 rs hres
    subst hy'
    refine ⟨rfl, hlen, fun j hj => ?_⟩
    obtain ⟨s, i, rv, g1, g2, g3, g4⟩ := hspec j hj
    rw [Nat.zero_add] at g1 g2
    exact ⟨s, i, rv, g1, g2, g3, g4⟩
  · intro hall
    obtain ⟨rs, hres⟩ := evalFrom_ok_exists (fun u => u.dynamics) time state
      input sys.systems_ 0 (by
        intro j hj
        obtain ⟨s, i, rv, g1, g2, g3⟩ := hall j hj
        rw [← Nat.zero_add j] at g1 g2
        exact ⟨s, i, rv, g1, g2, g3⟩)
    rw [dynamics_eval sys time state input hs hi, hres]
    exact ⟨_, rfl⟩
  · intro hall
    obtain ⟨rs, hres⟩ := evalFrom_ok_exists (fun u => u.output) time state
      input sys.systems_ 0 (by
        intro j hj
        obtain ⟨s, i, rv, g1, g2, g3⟩ := hall j hj
        rw [← Nat.zero_add j] at g1 g2
        exact ⟨s, i, rv, g1, g2, g3⟩)
    rw [output_eval sys time state input hs hi, hres]
    exact ⟨_, rfl⟩

/-- C1 witness: the one-unit `natUnit` aggregate evaluates `dynamics`
successfully on a matching state/input pair. -/
theorem dynamics_output_pointwise_witness :
    ∃ r, natSys1.dynamics 0 ⟨1, [5]⟩ ⟨1, [7]⟩ = Except.ok r :=
  (dynamics_output_pointwise natSys1 0 ⟨1, [5]⟩ ⟨1, [7]⟩ (by decide)
    (by decide)).2.2.1 (by
      intro j hj
      match j, hj with
      | 0, _ => exact ⟨5, 7, 12, rfl, rfl, rfl⟩)

/-- Two composite vectors agreeing at index `j` through `get` agree through
the loop's `getE` as well. -/
theorem getE_congr {V : Type} (v v' : NAryState V) (j : Nat)
    (h : v.get j = v'.get j) : v.getE j = v'.getE j := by
  rw [NAryState.getE, NAryState.getE, h]

/-- Two successful runs of the evaluation loop over the same units, on
composite vectors that agree everywhere except possibly at index `i`, agree
at every result index other than `i`. -/
theorem evalFrom_congr_off_index {T S I O R : Type}
    (f : UnitSystem T S I O → T → S → I → Except CppException R)
    (time : T) (i : Nat) (st st' : NAryState S) (inp inp' : NAryState I)
    (hst : ∀ j, j ≠ i → st.get j = st'.get j)
    (hinp : ∀ j, j ≠ i → inp.get j = inp'.get j)
    (l : List (UnitSystem T S I O)) (rs rs' : List R)
    (h : NArySystem.evalFrom f time st inp l 0 = Except.ok rs)
    (h' : NArySystem.evalFrom f time st' inp' l 0 = Except.ok rs') :
    ∀ j, j ≠ i → rs[j]? = rs'[j]? := by
  obtain ⟨hlen, hspec⟩ := evalFrom_ok_spec f time st inp l 0 rs h
  obtain ⟨hlen', hspec'⟩ := evalFrom_ok_spec f time st' inp' l 0 rs' h'
  intro j hj
  by_cases hjl : j < l.length
  · obtain ⟨s, ii, rv, g1, g2, g3, g4⟩ := hspec j hjl
    obtain ⟨s2, ii2, rv2, g1', g2', g3', g4'⟩ := hspec' j hjl
    rw [Nat.zero_add] at g1 g2 g1' g2'
    rw [getE_congr st st' j (hst j hj)] at g1
    rw [getE_congr inp inp' j (hinp j hj)] at g2
    rw [g1'] at g1
    rw [g2'] at g2
    simp only [Except.ok.injEq] at g1 g2
    subst g1
    subst g2
    rw [g3'] at g3
    simp only [Except.ok.injEq] at g3
    subst g3
    rw [g4, g4']
  · rw [List.getElem?_eq_none (by omega), List.getElem?_eq_none (by omega)]

/-- C3: on the same aggregate, two `dynamics` (or `output`) evaluations whose
composite state and input vectors agree at every unit index other than `i`
produce results that agree at every index other than `i`, and with equal
counts — the direct-sum independence of the units. -/
theorem per_unit_independence {T S I O : Type} (sys : NArySystem T S I O)
    (time : T) (i : Nat) (st st' : NAryState S) (inp inp' : NAryState I)
    (hst : ∀ j, j ≠ i → st.get j = st'.get j)
    (hinp : ∀ j, j ≠ i → inp.get j = inp'.get j) :
    (∀ r r', sys.dynamics time st inp = Except.ok r →
      sys.dynamics time st' inp' = Except.ok r' →
      r.count = r'.count ∧ ∀ j, j ≠ i → r.get j = r'.get j) ∧
    (∀ y y', sys.output time st inp = Except.ok y →
      sys.output time st' inp' = Except.ok y' →
      y.count = y'.count ∧ ∀ j, j ≠ i → y.get j = y'.get j) := by
  constructor
  · intro r r' hr hr'
    obtain ⟨rs, hres, hpack⟩ := dynamics_ok_elim sys time st inp r hr
    obtain ⟨rs', hres', hpack'⟩ := dynamics_ok_elim sys time st' inp' r' hr'
    subst hpack
    subst hpack'
    exact ⟨rfl, evalFrom_congr_off_index (fun u => u.dynamics) time i st st'
      inp inp' hst hinp sys.systems_ rs rs' hres hres'⟩
  · intro y y' hy hy'
    obtain ⟨rs, hres, hpack⟩ := output_ok_elim sys time st inp y hy
    obtain ⟨rs', hres', hpack'⟩ := output_ok_elim sys time st' inp' y' hy'
    subst hpack
    subst hpack'
    exact ⟨rfl, evalFrom_congr_off_index (fun u => u.output) time i st st'
      inp inp' hst hinp sys.systems_ rs rs' hres hres'⟩

/-- C3 witness: on the one-unit aggregate, changing only unit 0's state
leaves the (empty) set of other result indices unchanged; index 1 of both
results agrees. -/
theorem per_unit_independence_witness :
    (natSys1.dynamics 0 ⟨1, [5]⟩ ⟨1, [7]⟩ = Except.ok ⟨1, [12]⟩ →
      natSys1.dynamics 0 ⟨1, [9]⟩ ⟨1, [7]⟩ = Except.ok ⟨1, [16]⟩ →
      (⟨1, [12]⟩ : NAryState Nat).count = (⟨1, [16]⟩ : NAryState Nat).count ∧
      ∀ j, j ≠ 0 → (⟨1, [12]⟩ : NAryState Nat).get j =
        (⟨1, [16]⟩ : NAryState Nat).get j) ∧
    ((⟨1, [12]⟩ : NAryState Nat).count = (⟨1, [16]⟩ : NAryState Nat).count ∧
      ∀ j, j ≠ 0 → (⟨1, [12]⟩ : NAryState Nat).get j =
        (⟨1, [16]⟩ : NAryState Nat).get j) := by
  have h := per_unit_independence natSys1 0 0 ⟨1, [5]⟩ ⟨1, [9]⟩ ⟨1, [7]⟩
    ⟨1, [7]⟩ (by
      intro j hj
      match j, hj with
      | j + 1, _ => rfl) (fun _ _ => rfl)
  exact ⟨h.1 ⟨1, [12]⟩ ⟨1, [16]⟩, h.1 ⟨1, [12]⟩ ⟨1, [16]⟩ rfl rfl⟩

/-- C6: `addSystem` appends the unit at the end of the ordered sequence (one
more element, no upper bound); appending `A` then `B` to an empty aggregate
puts `A` at index 0 and `B` at index 1; and any successful `dynamics` or
`output` on that aggregate takes `B`'s operand slices from index 1 of the
composite vectors and deposits `B`'s result at index 1. -/
theorem addSystem_append_and_order {T S I O : Type} (sys : NArySystem T S I O)
    (u A B : UnitSystem T S I O) (time : T) :
    (sys.addSystem u).systems_ = sys.systems_ ++ [u] ∧
    (sys.addSystem u).systems_.length = sys.systems_.length + 1 ∧
    (((⟨[]⟩ : NArySystem T S I O).addSystem A).addSystem B).systems_ =
      [A, B] ∧
    ((((⟨[]⟩ : NArySystem T S I O).addSystem A).addSystem B).systems_)[0]? =
      some A ∧
    ((((⟨[]⟩ : NArySystem T S I O).addSystem A).addSystem B).systems_)[1]? =
      some B ∧
    (∀ (st : NAryState S) (inp : NAryState I) (r : NAryState S),
      (((⟨[]⟩ : NArySystem T S I O).addSystem A).addSystem B).dynamics time
        st inp = Except.ok r →
      ∃ s i rv, st.getE 1 = Except.ok s ∧ inp.getE 1 = Except.ok i ∧
        B.dynamics time s i = Except.ok rv ∧ r.get 1 = some rv) ∧
    (∀ (st : NAryState S) (inp : NAryState I) (y : NAryState O),
      (((⟨[]⟩ : NArySystem T S I O).addSystem A).addSystem B).output time
        st inp = Except.ok y →
      ∃ s i rv, st.getE 1 = Except.ok s ∧ inp.getE 1 = Except.ok i ∧
        B.output time s i = Except.ok rv ∧ y.get 1 = some rv) := by
  refine ⟨rfl, by simp [NArySystem.addSystem], rfl, rfl, rfl, ?_, ?_⟩
  · intro st inp r hr
    obtain ⟨rs, hres, hpack⟩ := dynamics_ok_elim _ time st inp r hr
    obtain ⟨hlen, hspec⟩ := evalFrom_ok_spec (fun u => u.dynamics) time st inp
      _ 0 rs hres
    obtain ⟨s, i, rv, g1, g2, g3, g4⟩ := hspec 1 (by
      show 1 < (((⟨[]⟩ : NArySystem T S I O).addSystem A).addSystem
        B).systems_.length
      simp [NArySystem.addSystem])
    rw [Nat.zero_add] at g1 g2
    subst hpack
    exact ⟨s, i, rv, g1, g2, g3, g4⟩
  · intro st inp y hy
    obtain ⟨rs, hres, hpack⟩ := output_ok_elim _ time st inp y hy
    obtain ⟨hlen, hspec⟩ := evalFrom_ok_spec (fun u => u.output) time st inp
      _ 0 rs hres
    obtain ⟨s, i, rv, g1, g2, g3, g4⟩ := hspec 1 (by
      show 1 < (((⟨[]⟩ : NArySystem T S I O).addSystem A).addSystem
        B).systems_.length
      simp [NArySystem.addSystem])
    rw [Nat.zero_add] at g1 g2
    subst hpack
    exact ⟨s, i, rv, g1, g2, g3, g4⟩

/-- C6 witness: appending `natUnit` then `natUnit2` to an empty aggregate and
evaluating `dynamics` on state [5, 6], input [7, 8] takes `natUnit2`'s slice
from index 1 (state 6, input 8) and stores its result 20 at index 1. -/
theorem addSystem_append_and_order_witness :
    ∃ s i rv, (⟨2, [5, 6]⟩ : NAryState Nat).getE 1 = Except.ok s ∧
      (⟨2, [7, 8]⟩ : NAryState Nat).getE 1 = Except.ok i ∧
      natUnit2.dynamics 0 s i = Except.ok rv ∧
      (⟨2, [12, 20]⟩ : NAryState Nat).get 1 = some rv :=
  (addSystem_append_and_order (⟨[]⟩ : NArySystem Nat Nat Nat Nat) natUnit
    natUnit natUnit2 0).2.2.2.2.2.1 ⟨2, [5, 6]⟩ ⟨2, [7, 8]⟩ ⟨2, [12, 20]⟩ rfl

/-- C7: when the counts pass validation, the units before index `i` evaluate
successfully and index `i`'s operands are in range, a failure `e` raised by
unit `i`'s own `dynamics` (resp. `output`) makes the aggregate call fail with
exactly that same `e` — not intercepted, wrapped, or augmented — and no
composite result vector is returned. -/
theorem unit_failure_propagates {T S I O : Type} (sys : NArySystem T S I O)
    (time : T) (state : NAryState S) (input : NAryState I) (i : Nat)
    (hs : ¬(state.count ≥ 0 ∧ state.count ≠ (sys.systems_.length : Int)))
    (hin : ¬(input.count ≥ 0 ∧ input.count ≠ (sys.systems_.length : Int)))
    (hi : i < sys.systems_.length) :
    (∀ e : CppException,
      (∀ j (hj : j < i), ∃ s ii rv, state.getE j = Except.ok s ∧
        input.getE j = Except.ok ii ∧
        (sys.systems_.get ⟨j, Nat.lt_trans hj hi⟩).dynamics time s ii =
          Except.ok rv) →
      (∃ s ii, state.getE i = Except.ok s ∧ input.getE i = Except.ok ii ∧
        (sys.systems_.get ⟨i, hi⟩).dynamics time s ii = Except.error e) →
      sys.dynamics time state input = Except.error e) ∧
    (∀ e : CppException,
      (∀ j (hj : j < i), ∃ s ii rv, state.getE j = Except.ok s ∧
        input.getE j = Except.ok ii ∧
        (sys.systems_.get ⟨j, Nat.lt_trans hj hi⟩).output time s ii =
          Except.ok rv) →
      (∃ s ii, state.getE i = Except.ok s ∧ input.getE i = Except.ok ii ∧
        (sys.systems_.get ⟨i, hi⟩).output time s ii = Except.error e) →
      sys.output time state input = Except.error e) := by
  constructor
  · intro e hpre hfail
    rw [dynamics_eval sys time state input hs hin]
    have hloop := evalFrom_error_at (fun u => u.dynamics) time state input
      sys.systems_ 0 i hi e (by
        intro j hj
        obtain ⟨s, ii, rv, g1, g2, g3⟩ := hpre j hj
        rw [← Nat.zero_add j] at g1 g2
        exact ⟨s, ii, rv, g1, g2, g3⟩) (by
        obtain ⟨s, ii, g1, g2, g3⟩ := hfail
        rw [← Nat.zero_add i] at g1 g2
        exact ⟨s, ii, g1, g2, g3⟩)
    rw [hloop]
  · intro e hpre hfail
    rw [output_eval sys time state input hs hin]
    have hloop := evalFrom_error_at (fun u => u.output) time state input
      sys.systems_ 0 i hi e (by
        intro j hj
        obtain ⟨s, ii, rv, g1, g2, g3⟩ := hpre j hj
        rw [← Nat.zero_add j] at g1 g2
        exact ⟨s, ii, rv, g1, g2, g3⟩) (by
        obtain ⟨s, ii, g1, g2, g3⟩ := hfail
        rw [← Nat.zero_add i] at g1 g2
        exact ⟨s, ii, g1, g2, g3⟩)
    rw [hloop]

/-- C7 witness: the one-unit aggregate over `failUnit` fails `dynamics` with
precisely the exception `failUnit`'s own `dynamics` raises. -/
theorem unit_failure_propagates_witness :
    failSys1.dynamics 0 ⟨1, [5]⟩ ⟨1, [7]⟩ =
      Except.error (CppException.other 3 "unit dynamics failure") :=
  (unit_failure_propagates failSys1 0 ⟨1, [5]⟩ ⟨1, [7]⟩ 0 (by decide)
    (by decide) (by decide)).1 (CppException.other 3 "unit dynamics failure")
    (fun j hj => absurd hj (Nat.not_lt_zero j)) ⟨5, 7, rfl, rfl, rfl⟩

/-- C8: on the aggregate of three identical one-dimensional units with
dynamics x' = -x + u, state [1, 2, 3] and input [0, 0, 0] give the state
derivative [-1, -2, -3] at every time value. -/
theorem scenario_three_units (time : ℚ) :
    scenarioSys.dynamics time ⟨3, [1, 2, 3]⟩ ⟨3, [0, 0, 0]⟩ =
      Except.ok ⟨3, [-1, -2, -3]⟩ := by
  norm_num [NArySystem.dynamics, NArySystem.evalFrom, NAryState.getE,
    NAryState.get, scenarioSys, scenarioUnit, except_ok_bind]

/-- C10: any sequence of calls to the query/evaluation operations
(`dynamics`, `output`, `isTimeVarying`, `isDirectFeedthrough`,
`getNumStates`, `getNumInputs`, `getNumOutputs`) leaves the aggregate — and
hence the result of every subsequent call — exactly as it was, and
`addSystem` changes nothing but appending one element to the registered
sequence. -/
theorem queries_leave_aggregate_unchanged {T S I O : Type}
    (sys : NArySystem T S I O) (ops : List (AggOp T S I O))
    (hq : ∀ op ∈ ops, op.isQuery = true) (u : UnitSystem T S I O) :
    runAll ops sys = sys ∧
    (∀ op : AggOp T S I O,
      (AggOp.run op (runAll ops sys)).1 = (AggOp.run op sys).1) ∧
    (AggOp.addSystemCall u).run sys =
      ((AggResult.unitRes : AggResult S O), ⟨sys.systems_ ++ [u]⟩) := by
  have key : ∀ (l : List (AggOp T S I O)) (s : NArySystem T S I O),
      (∀ op ∈ l, op.isQuery = true) → runAll l s = s := by
    intro l
    induction l with
    | nil => intro s _; rfl
    | cons op rest ih =>
      intro s hq'
      have hop : (AggOp.run op s).2 = s := by
        cases op
        case addSystemCall u' =>
          exact absurd (hq' _ (List.mem_cons_self _ _))
            (by simp [AggOp.isQuery])
        all_goals rfl
      rw [runAll, hop]
      exact ih s (fun o ho => hq' o (List.mem_cons_of_mem _ ho))
  have h1 := key ops sys hq
  exact ⟨h1, fun op => by rw [h1], rfl⟩

/-- C10 witness: a flag query followed by a `dynamics` evaluation leaves the
one-unit aggregate unchanged. -/
theorem queries_leave_aggregate_unchanged_witness :
    runAll [AggOp.isTimeVaryingCall,
      AggOp.dynamicsCall 0 ⟨1, [5]⟩ ⟨1, [7]⟩] natSys1 = natSys1 :=
  (queries_leave_aggregate_unchanged natSys1
    [AggOp.isTimeVaryingCall, AggOp.dynamicsCall 0 ⟨1, [5]⟩ ⟨1, [7]⟩]
    (by
      intro op hop
      simp only [List.mem_cons, List.not_mem_nil, or_false] at hop
      rcases hop with rfl | rfl <;> rfl) natUnit).1

end Drake
